import Mathlib

/-!
Verification development for the transient-response simulation engine of
`pyfda/plot_widgets/plot_impz.py` (class `PlotImpz`).  The numeric core —
stimulus generation, noise/DC stages, filter application (`scipy.signal`
`lfilter` / `sosfilt` / `filtfilt`), settling-error post-processing,
complex cleanup (`np.real_if_close`) and the auto point-count heuristic
(`calc_n_points`) — is embedded shallowly: machine floats become real
numbers, complex arrays become `List ℂ`, the process-wide random generator
becomes explicit draw functions `ℕ → ℝ`, and the mutable widget state
(`self.x`, `self.y`, …) becomes explicit state passing on a `CalcState`
record.
-/

open scoped Classical

/-- One second-order section: a row `[b0, b1, b2, a0, a1, a2]` of the
`fb.fil[0]['sos']` array. -/
structure SOSec where
  b0 : ℂ
  b1 : ℂ
  b2 : ℂ
  a0 : ℂ
  a1 : ℂ
  a2 : ℂ

/-- Worker for `lfilter`: consumes the input samples one by one, keeping
`xrev` = inputs seen so far (most recent first) and `yrev` = outputs
produced so far (most recent first); each output is the direct-form
difference equation `y[n] = (Σ_k b[k]·x[n-k] − Σ_{k≥1} a[k]·y[n-k]) / a[0]`
(the `zipWith` truncation supplies the implicit zero history). -/
noncomputable def lfilterGo (b atail : List ℂ) (a0 : ℂ) :
    List ℂ → List ℂ → List ℂ → List ℂ
  | [], _, yrev => yrev.reverse
  | xn :: rest, xrev, yrev =>
    let xr := xn :: xrev
    let yn := ((List.zipWith (fun c v => c * v) b xr).sum -
               (List.zipWith (fun c v => c * v) atail yrev).sum) / a0
    lfilterGo b atail a0 rest xr (yn :: yrev)

/-- `scipy.signal.lfilter(b, a, x)`: single-pass causal direct-form IIR
recursion `a[0]·y[n] = Σ_k b[k]·x[n-k] − Σ_{k≥1} a[k]·y[n-k]` with zero
initial conditions. -/
noncomputable def lfilter (b a x : List ℂ) : List ℂ :=
  lfilterGo b (a.drop 1) (a.headD 0) x [] []

/-- `scipy.signal.sosfilt(sos, x)`: the cascade of biquad direct-form
filters, one section at a time, each consuming the previous section's
output. -/
noncomputable def sosfilt (sos : List SOSec) (x : List ℂ) : List ℂ :=
  sos.foldl (fun acc s => lfilter [s.b0, s.b1, s.b2] [s.a0, s.a1, s.a2] acc) x

/-- `scipy.signal.filtfilt(b, a, x, -1, None)`: zero-phase forward-backward
filtering — filter forward, reverse, filter again, reverse again.  (scipy's
steady-state initial-condition refinement `lfilter_zi` is abstracted; the
forward-backward structure is what the selection logic of `calc` relies
on.) -/
noncomputable def filtfilt (b a x : List ℂ) : List ℂ :=
  (lfilter b a (lfilter b a x).reverse).reverse

/-- `scipy.signal.freqz(b, a, [w])`: frequency response
`H(e^{jw}) = (Σ_k b[k]·e^{-jwk}) / (Σ_k a[k]·e^{-jwk})` at a single
frequency `w`. -/
noncomputable def freqzAt (b a : List ℂ) (w : ℝ) : ℂ :=
  (b.enum.map fun p => p.2 * Complex.exp (-(Complex.I) * w * p.1)).sum /
  (a.enum.map fun p => p.2 * Complex.exp (-(Complex.I) * w * p.1)).sum

/-- `PlotImpz.calc_n_points` (lines 429-447): resolve the number of points
to display.  `ft` is `fb.fil[0]['ft']`, `b_len` is `len(fb.fil[0]['ba'][0])`.
When the user selects 0 points the number is 100 for an IIR filter and
`min(len(b), 100)` for an FIR filter; otherwise the user value is used. -/
def calc_n_points (ft : String) (b_len : ℕ) (N_user : ℕ) : ℕ :=
  if N_user = 0 then
    if ft = "IIR" then 100 else min b_len 100
  else N_user

/-- Lines 302-304 of `calc`: when the stimulus is `"StepErr"`, subtract the
magnitude of the DC response `abs(freqz(b, a, [0])[1])` from every sample of
the filtered response; otherwise leave it unchanged. -/
noncomputable def stepErrAdjust (stim : String) (bb aa : List ℂ) (y : List ℂ) :
    List ℂ :=
  if stim = "StepErr" then
    y.map fun z => z - ((Complex.abs (freqzAt bb aa 0) : ℝ) : ℂ)
  else y

/-- `np.real_if_close(y, tol = 1e3)`: if every sample's imaginary component
has absolute value below `tol` multiples of machine epsilon (`eps` is the
machine epsilon of the floating dtype), return the elementwise real part;
otherwise return the array unchanged. -/
noncomputable def real_if_close (tol eps : ℝ) (y : List ℂ) : List ℂ :=
  if ∀ z ∈ y, |z.im| < tol * eps then y.map fun z => (z.re : ℂ) else y

/-- Output of the complex/real decomposition in lines 307-313 of `calc`. -/
structure DecompOut where
  y : List ℂ
  y_i : Option (List ℝ)
  cmplx : Prop

/-- Lines 307-313 of `calc`: `cmplx = np.any(np.iscomplex(y))`; when complex,
store the elementwise real part as `y` and the elementwise imaginary part as
`y_i`; otherwise store `y` directly and no imaginary part. -/
noncomputable def decompose (y : List ℂ) : DecompOut :=
  if ∃ z ∈ y, z.im ≠ 0 then
    ⟨y.map fun z => (z.re : ℂ), some (y.map Complex.im), ∃ z ∈ y, z.im ≠ 0⟩
  else
    ⟨y, none, ∃ z ∈ y, z.im ≠ 0⟩

/-- `scipy.signal.sawtooth(x)` with default width 1: a ramp rising from −1
to 1 over each period of `2π`. -/
noncomputable def sawtooth (x : ℝ) : ℝ :=
  2 * (x / (2 * Real.pi) - Int.floor (x / (2 * Real.pi))) - 1

/-- The inputs `PlotImpz.calc` reads from the UI (`self.ui.*`, `self.f1`,
`self.f2`) and the filter broker (`fb.fil[0]`):
* `stim` — `self.ui.cmbStimulus.currentText()`;
* `N_user` — the parsed (non-negative) contents of `ledN_points`;
* `N_start` — `self.ui.N_start`;
* `f_S` — `fb.fil[0]['f_S']`;
* `A1 A2 f1 f2 phi1 phi2` — stimulus amplitudes, normalized frequencies
  and phases;
* `noise`, `noi` — `self.ui.noise` and `self.ui.noi`;
* `g`, `u` — the process-wide random generator's standard-normal and
  uniform-on-`[0,1)` draw streams (`np.random.randn` / `np.random.rand`);
* `dcEnabled`, `DC` — whether `self.ui.ledDC` is visible, and `self.ui.DC`;
* `ft`, `bb`, `aa`, `sos` — `fb.fil[0]['ft']`, `fb.fil[0]['ba']`,
  `fb.fil[0]['sos']`;
* `antiCausal` — whether `'zpkA' in fb.fil[0]`;
* `eps` — the machine epsilon of the floating dtype. -/
structure CalcInputs where
  stim : String
  N_user : ℕ
  N_start : ℕ
  f_S : ℝ
  A1 : ℝ
  A2 : ℝ
  f1 : ℝ
  f2 : ℝ
  phi1 : ℝ
  phi2 : ℝ
  noise : String
  noi : ℝ
  g : ℕ → ℝ
  u : ℕ → ℝ
  dcEnabled : Bool
  DC : ℝ
  ft : String
  bb : List ℂ
  aa : List ℂ
  sos : List SOSec
  antiCausal : Bool
  eps : ℝ

/-- Lines 220-226 of `calc`: the total number of points
`self.N = (N_user if N_user != 0 else calc_n_points(N_user)) + N_start`. -/
def nTotal (inp : CalcInputs) : ℕ :=
  (if inp.N_user = 0 then calc_n_points inp.ft inp.bb.length inp.N_user
   else inp.N_user) + inp.N_start

/-- Line 227 of `calc`: `self.t = np.linspace(0, N/f_S, N, endpoint=False)`,
whose `n`-th entry is `n·(N/f_S)/N = n/f_S`. -/
noncomputable def timeAxis (inp : CalcInputs) : List ℝ :=
  (List.range (nTotal inp)).map fun n : ℕ => (n : ℝ) / inp.f_S

/-- Lines 230-270 of `calc`: generate the stimulus `x[n]` together with the
title and response-label strings, or `none` for an unrecognized stimulus
(the `else: logger.error(...); return` branch).  `x[0] = A1` on the Pulse
branch is `List.set 0`. -/
noncomputable def stimGen (stim : String) (N : ℕ) (t : List ℝ)
    (A1 A2 f1 f2 phi1 phi2 : ℝ) : Option (List ℝ × String × String) :=
  if stim = "Pulse" then
    some ((List.replicate N (0 : ℝ)).set 0 A1, "Impulse Response", "$h[n]$")
  else if stim = "Step" then
    some (List.replicate N A1, "Step Response", "$h_\x7b\\epsilon\x7d[n]$")
  else if stim = "StepErr" then
    some (List.replicate N A1, "Settling Error",
      "$h_\x7b\\epsilon, \\infty\x7d - h_\x7b\\epsilon\x7d[n]$")
  else if stim = "Cos" then
    some (t.map fun ti => A1 * Real.cos (2 * Real.pi * ti * f1),
      "Transient Response to Cosine Signal", "$y_\x7b\\cos\x7d[n]$")
  else if stim = "Sine" then
    some (t.map fun ti => A1 * Real.sin (2 * Real.pi * ti * f1 + phi1) +
                          A2 * Real.sin (2 * Real.pi * ti * f2 + phi2),
      "Transient Response to Sinusoidal Signal", "$y_\x7b\\sin\x7d[n]$")
  else if stim = "Rect" then
    some (t.map fun ti => A1 * Real.sign (Real.sin (2 * Real.pi * ti * f1)),
      "Transient Response to Rect. Signal", "$y_\x7brect\x7d[n]$")
  else if stim = "Saw" then
    some (t.map fun ti => A1 * sawtooth (ti * f1 * (2 * Real.pi)),
      "Transient Response to Sawtooth Signal", "$y_\x7bsaw\x7d[n]$")
  else none

/-- Lines 272-276 of `calc`: `self.x[N_start:] += noi * np.random.randn(N -
N_start)` for Gaussian noise, `self.x[N_start:] += noi *
(np.random.rand(N - N_start) - 0.5)` for uniform noise, nothing otherwise.
`g`/`u` are the generator's draw streams. -/
def noiseStage (noise : String) (noi : ℝ) (g u : ℕ → ℝ) (N_start : ℕ)
    (x : List ℝ) : List ℝ :=
  if noise = "gauss" then
    x.take N_start ++
      List.zipWith (fun xi w => xi + noi * w) (x.drop N_start)
        ((List.range (x.length - N_start)).map g)
  else if noise = "uniform" then
    x.take N_start ++
      List.zipWith (fun xi w => xi + noi * (w - 0.5)) (x.drop N_start)
        ((List.range (x.length - N_start)).map u)
  else x

/-- Lines 278-280 of `calc`: `if self.ui.ledDC.isVisible: self.x += self.ui.DC`.
NOTE: the source references the bound method object `isVisible` without
calling it, so the condition is always truthy and the DC offset is added
unconditionally; the `dcEnabled` flag (the widget's actual visibility, the
intent stated by the source comment "Add DC to stimulus when visible /
enabled") is therefore never consulted. -/
def dcStage (dcEnabled : Bool) (DC : ℝ) (x : List ℝ) : List ℝ :=
  x.map fun xi => xi + DC

/-- Lines 293-298 of `calc`: select the filtering mode.  `causal = not
antiCausal`; a non-empty SOS list on a causal filter selects `sosfilt`,
an anti-causal filter selects `filtfilt` (ignoring `sos`), otherwise
`lfilter`. -/
noncomputable def applyFilter (sos : List SOSec) (antiCausal : Bool)
    (bb aa : List ℂ) (x : List ℂ) : List ℂ :=
  if 0 < sos.length ∧ antiCausal = false then sosfilt sos x
  else if antiCausal = true then filtfilt bb aa x
  else lfilter bb aa x

/-- The widget state that `PlotImpz.calc` reads and writes: the mutable
instance fields `self.N`, `self.t`, `self.x`, `self.y`, `self.y_i`,
`self.cmplx`, `self.title_str`, `self.H_str`. -/
structure CalcState where
  N : ℕ
  t : List ℝ
  x : List ℝ
  y : List ℂ
  y_i : Option (List ℝ)
  cmplx : Prop
  title_str : String
  H_str : String

/-- Lines 272-280 of `calc` as one stage: the noise stage followed by the
DC stage, turning the raw stimulus into the stored `self.x`. -/
noncomputable def stimPipeline (inp : CalcInputs) (x0 : List ℝ) : List ℝ :=
  dcStage inp.dcEnabled inp.DC
    (noiseStage inp.noise inp.noi inp.g inp.u inp.N_start x0)

/-- Lines 293-313 of `calc` as one stage: filter-mode dispatch, the
settling-error adjustment, `real_if_close`, and the complex/real
decomposition, turning the stored `self.x` into the stored `self.y`,
`self.y_i` and `self.cmplx`. -/
noncomputable def responsePipeline (inp : CalcInputs) (x : List ℝ) :
    DecompOut :=
  decompose (real_if_close 1000 inp.eps (stepErrAdjust inp.stim inp.bb inp.aa
    (applyFilter inp.sos inp.antiCausal inp.bb inp.aa
      (x.map fun r : ℝ => (r : ℂ)))))

/-- `PlotImpz.calc` (lines 215-313) as a state transformer: given the
previous widget state and the UI/filter-broker inputs, produce the new
state together with a flag that is `true` iff the computation ran to
completion (`false` models the two `logger.error(...); return` early
exits, which leave the not-yet-assigned instance fields at their previous
values). -/
noncomputable def calcResponse (prev : CalcState) (inp : CalcInputs) :
    CalcState × Bool :=
  match stimGen inp.stim (nTotal inp) (timeAxis inp) inp.A1 inp.A2 inp.f1
      inp.f2 inp.phi1 inp.phi2 with
  | none => ({ prev with N := nTotal inp, t := timeAxis inp }, false)
  | some (x0, title, Hs) =>
    if min inp.aa.length inp.bb.length < 2 then
      ({ prev with
         N := nTotal inp, t := timeAxis inp, x := stimPipeline inp x0,
         title_str := title, H_str := Hs }, false)
    else
      ({ N := nTotal inp, t := timeAxis inp, x := stimPipeline inp x0,
         y := (responsePipeline inp (stimPipeline inp x0)).y,
         y_i := (responsePipeline inp (stimPipeline inp x0)).y_i,
         cmplx := (responsePipeline inp (stimPipeline inp x0)).cmplx,
         title_str := title, H_str := Hs }, true)

/-- An initial widget state for concrete evaluations. -/
def st0 : CalcState :=
  { N := 0, t := [], x := [], y := [], y_i := none, cmplx := False,
    title_str := "", H_str := "" }

/-- A baseline input set: pulse stimulus, two points, no startup offset,
no noise, zero DC, identity-like padded coefficients. -/
noncomputable def inpBase : CalcInputs :=
  { stim := "Pulse", N_user := 2, N_start := 0, f_S := 1, A1 := 1, A2 := 0,
    f1 := 0, f2 := 0, phi1 := 0, phi2 := 0, noise := "none", noi := 0,
    g := fun _ => 0, u := fun _ => 0, dcEnabled := false, DC := 0,
    ft := "FIR", bb := [1, 0], aa := [1, 0], sos := [], antiCausal := false,
    eps := 1 }

/-- The identity filter exactly as the claim writes it: `b = [1]`, `a = [1]`. -/
noncomputable def inpIdentityShort : CalcInputs :=
  { inpBase with bb := [1], aa := [1] }

/-- An unrecognized stimulus kind. -/
noncomputable def inpUnknownStim : CalcInputs :=
  { inpBase with stim := "xyz" }

/-- A degenerate filter (`min(len(a), len(b)) = 1 < 2`) with a recognized
step stimulus, unit DC offset and an invisible DC widget. -/
noncomputable def inpDegenStep : CalcInputs :=
  { inpBase with
    stim := "Step", N_user := 1, bb := [1], aa := [1, 2], DC := 1 }

/-- A zero step stimulus with unit DC offset while the DC widget is not
visible (`dcEnabled = false`), through the padded identity filter. -/
noncomputable def inpDCBug : CalcInputs :=
  { inpBase with stim := "Step", N_user := 1, A1 := 0, DC := 1 }

/-- `lfilterGo` emits exactly one output sample per input sample. -/
theorem lfilterGo_length (b atail : List ℂ) (a0 : ℂ) (x xrev yrev : List ℂ) :
    (lfilterGo b atail a0 x xrev yrev).length = yrev.length + x.length := by
  induction x generalizing xrev yrev with
  | nil => simp [lfilterGo]
  | cons xn rest ih =>
    simp only [lfilterGo, ih, List.length_cons]
    omega

/-- `lfilter` preserves the signal length. -/
theorem lfilter_length (b a x : List ℂ) : (lfilter b a x).length = x.length := by
  simp [lfilter, lfilterGo_length]

/-- `sosfilt` preserves the signal length. -/
theorem sosfilt_length (sos : List SOSec) (x : List ℂ) :
    (sosfilt sos x).length = x.length := by
  induction sos generalizing x with
  | nil => simp [sosfilt]
  | cons s rest ih =>
    rw [sosfilt, List.foldl_cons]
    have h := ih (lfilter [s.b0, s.b1, s.b2] [s.a0, s.a1, s.a2] x)
    rw [sosfilt] at h
    rw [h, lfilter_length]

/-- `filtfilt` preserves the signal length. -/
theorem filtfilt_length (b a x : List ℂ) :
    (filtfilt b a x).length = x.length := by
  simp [filtfilt, lfilter_length]

/-- Every filtering mode preserves the signal length. -/
theorem applyFilter_length (sos : List SOSec) (antiCausal : Bool)
    (bb aa : List ℂ) (x : List ℂ) :
    (applyFilter sos antiCausal bb aa x).length = x.length := by
  unfold applyFilter
  split_ifs <;> simp [sosfilt_length, filtfilt_length, lfilter_length]

/-- The settling-error adjustment preserves the signal length. -/
theorem stepErrAdjust_length (stim : String) (bb aa : List ℂ) (y : List ℂ) :
    (stepErrAdjust stim bb aa y).length = y.length := by
  unfold stepErrAdjust
  split_ifs <;> simp

/-- `real_if_close` preserves the signal length. -/
theorem real_if_close_length (tol eps : ℝ) (y : List ℂ) :
    (real_if_close tol eps y).length = y.length := by
  unfold real_if_close
  split_ifs <;> simp

/-- The `cmplx` flag stored by the decomposition is exactly
`np.any(np.iscomplex(y))`. -/
theorem decompose_cmplx_iff (y : List ℂ) :
    (decompose y).cmplx ↔ ∃ z ∈ y, z.im ≠ 0 := by
  unfold decompose
  split_ifs <;> exact Iff.rfl

/-- Decomposition of a response with a genuinely complex sample. -/
theorem decompose_pos (y : List ℂ) (h : ∃ z ∈ y, z.im ≠ 0) :
    (decompose y).y = y.map (fun z => (z.re : ℂ)) ∧
      (decompose y).y_i = some (y.map Complex.im) := by
  unfold decompose
  rw [if_pos h]
  exact ⟨rfl, rfl⟩

/-- Decomposition of an effectively real response. -/
theorem decompose_neg (y : List ℂ) (h : ¬ ∃ z ∈ y, z.im ≠ 0) :
    (decompose y).y = y ∧ (decompose y).y_i = none := by
  unfold decompose
  rw [if_neg h]
  exact ⟨rfl, rfl⟩

/-- The decomposition preserves the signal length, in both components. -/
theorem decompose_length (y : List ℂ) :
    (decompose y).y.length = y.length ∧
      (∀ l, (decompose y).y_i = some l → l.length = y.length) := by
  by_cases h : ∃ z ∈ y, z.im ≠ 0
  · obtain ⟨h1, h2⟩ := decompose_pos y h
    refine ⟨by rw [h1]; simp, fun l hl => ?_⟩
    rw [h2] at hl
    cases hl
    simp
  · obtain ⟨h1, h2⟩ := decompose_neg y h
    refine ⟨by rw [h1], fun l hl => ?_⟩
    rw [h2] at hl
    cases hl

/-- The stimulus generator fails exactly on the stimulus kinds outside the
seven recognized ones. -/
theorem stimGen_eq_none_iff (stim : String) (N : ℕ) (t : List ℝ)
    (A1 A2 f1 f2 phi1 phi2 : ℝ) :
    stimGen stim N t A1 A2 f1 f2 phi1 phi2 = none ↔
      stim ∉ ["Pulse", "Step", "StepErr", "Cos", "Sine", "Rect", "Saw"] := by
  unfold stimGen
  split_ifs <;> simp_all

/-- Every recognized stimulus has exactly `N` samples (given a time axis of
length `N`). -/
theorem stimGen_length (stim : String) (N : ℕ) (t : List ℝ)
    (A1 A2 f1 f2 phi1 phi2 : ℝ) (x0 : List ℝ) (ti hs : String)
    (hsome : stimGen stim N t A1 A2 f1 f2 phi1 phi2 = some (x0, ti, hs))
    (ht : t.length = N) : x0.length = N := by
  unfold stimGen at hsome
  split_ifs at hsome <;>
    simp only [Option.some.injEq, Prod.mk.injEq] at hsome
  all_goals
    obtain ⟨h1, -, -⟩ := hsome
  all_goals
    subst h1
  all_goals
    simp [ht]

/-- The noise stage preserves the signal length. -/
theorem noiseStage_length (noise : String) (noi : ℝ) (g u : ℕ → ℝ)
    (N_start : ℕ) (x : List ℝ) :
    (noiseStage noise noi g u N_start x).length = x.length := by
  unfold noiseStage
  split_ifs <;> simp <;> omega

/-- The DC stage preserves the signal length. -/
theorem dcStage_length (dcEnabled : Bool) (DC : ℝ) (x : List ℝ) :
    (dcStage dcEnabled DC x).length = x.length := by
  simp [dcStage]

/-- The time axis has `nTotal` samples. -/
theorem timeAxis_length (inp : CalcInputs) :
    (timeAxis inp).length = nTotal inp := by
  rw [timeAxis, List.length_map, List.length_range]

/-- `lfilterGo` on the padded identity coefficients reproduces its input. -/
theorem lfilterGo_identity (x xrev yrev : List ℂ) :
    lfilterGo [1, 0] [0] 1 x xrev yrev = yrev.reverse ++ x := by
  induction x generalizing xrev yrev with
  | nil => simp [lfilterGo]
  | cons xn rest ih =>
    simp only [lfilterGo]
    rw [ih]
    cases xrev <;> cases yrev <;> simp

/-- `lfilter` with `b = [1, 0]`, `a = [1, 0]` is the identity. -/
theorem lfilter_identity (x : List ℂ) : lfilter [1, 0] [1, 0] x = x := by
  have h := lfilterGo_identity x [] []
  simpa [lfilter] using h

/-- Samples before the spliced-in suffix of a noise stage are untouched. -/
theorem noiseKeep_getD (x ys : List ℝ) (n i : ℕ) (h : i < n)
    (hlen : ys.length = x.length - n) :
    (x.take n ++ ys).getD i 0 = x.getD i 0 := by
  have hL : (x.take n ++ ys).length = x.length := by
    simp only [List.length_append, List.length_take, hlen]
    omega
  by_cases hi : i < x.length
  · have hT : i < (x.take n).length := by
      simp only [List.length_take]
      omega
    rw [List.getD_eq_getElem _ _ (by omega : i < (x.take n ++ ys).length),
        List.getD_eq_getElem _ _ hi, List.getElem_append_left hT]
    exact List.getElem_take x
  · rw [List.getD_eq_default _ _ (by omega),
        List.getD_eq_default _ _ (by omega)]

/-- Samples in the spliced-in suffix of a noise stage combine the original
sample at the same position with the draw indexed from the start of the
suffix. -/
theorem noiseAdd_getD (x : List ℝ) (w : ℕ → ℝ) (f : ℝ → ℝ → ℝ) (n i : ℕ)
    (hn : n ≤ i) (hi : i < x.length) :
    (x.take n ++ List.zipWith f (x.drop n)
      ((List.range (x.length - n)).map w)).getD i 0
      = f (x.getD i 0) (w (i - n)) := by
  have hT : (x.take n).length = n := by
    simp only [List.length_take]
    omega
  have hZ : (List.zipWith f (x.drop n)
      ((List.range (x.length - n)).map w)).length = x.length - n := by
    simp
  have hL : (x.take n ++ List.zipWith f (x.drop n)
      ((List.range (x.length - n)).map w)).length = x.length := by
    simp only [List.length_append, hT, hZ]
    omega
  have hidx : n + (i - n) = i := by omega
  rw [List.getD_eq_getElem _ _ (by omega : i < (x.take n ++
        List.zipWith f (x.drop n) ((List.range (x.length - n)).map w)).length),
      List.getD_eq_getElem _ _ hi,
      List.getElem_append_right (by rw [hT]; omega)]
  simp only [hT]
  rw [List.getElem_zipWith, List.getElem_drop, List.getElem_map,
      List.getElem_range]
  simp only [hidx]

/-- `freqz` evaluated at frequency 0 is the DC gain `sum(b) / sum(a)`. -/
theorem freqzAt_zero (b a : List ℂ) : freqzAt b a 0 = b.sum / a.sum := by
  have h : ∀ l : List ℂ,
      (l.enum.map fun p =>
        p.2 * Complex.exp (-(Complex.I) * ((0 : ℝ) : ℂ) * p.1)).sum = l.sum := by
    intro l
    have h2 : (l.enum.map fun p =>
        p.2 * Complex.exp (-(Complex.I) * ((0 : ℝ) : ℂ) * p.1)) =
        l.enum.map Prod.snd := by
      apply List.map_congr_left
      intro p _
      simp [Complex.exp_zero]
    rw [h2, List.enum_map_snd]
  unfold freqzAt
  rw [h, h]

/-- Evaluation of `calc` on an unrecognized stimulus: only `N` and `t` are
overwritten and the flag reports failure. -/
theorem calcResponse_eval_none (prev : CalcState) (inp : CalcInputs)
    (h : stimGen inp.stim (nTotal inp) (timeAxis inp) inp.A1 inp.A2 inp.f1
      inp.f2 inp.phi1 inp.phi2 = none) :
    calcResponse prev inp =
      ({ prev with N := nTotal inp, t := timeAxis inp }, false) := by
  simp [calcResponse, h]

/-- Evaluation of `calc` on a recognized stimulus with degenerate
coefficients: `N`, `t`, `x` and the labels are overwritten, the response
fields keep their previous values, and the flag reports failure. -/
theorem calcResponse_eval_degen (prev : CalcState) (inp : CalcInputs)
    (x0 : List ℝ) (ti hs : String)
    (h : stimGen inp.stim (nTotal inp) (timeAxis inp) inp.A1 inp.A2 inp.f1
      inp.f2 inp.phi1 inp.phi2 = some (x0, ti, hs))
    (hdeg : min inp.aa.length inp.bb.length < 2) :
    calcResponse prev inp =
      ({ prev with
         N := nTotal inp, t := timeAxis inp, x := stimPipeline inp x0,
         title_str := ti, H_str := hs }, false) := by
  simp [calcResponse, h, hdeg]

/-- Evaluation of `calc` on a recognized stimulus with usable
coefficients: all fields are overwritten and the flag reports success. -/
theorem calcResponse_eval_ok (prev : CalcState) (inp : CalcInputs)
    (x0 : List ℝ) (ti hs : String)
    (h : stimGen inp.stim (nTotal inp) (timeAxis inp) inp.A1 inp.A2 inp.f1
      inp.f2 inp.phi1 inp.phi2 = some (x0, ti, hs))
    (hdeg : ¬ min inp.aa.length inp.bb.length < 2) :
    calcResponse prev inp =
      ({ N := nTotal inp, t := timeAxis inp, x := stimPipeline inp x0,
         y := (responsePipeline inp (stimPipeline inp x0)).y,
         y_i := (responsePipeline inp (stimPipeline inp x0)).y_i,
         cmplx := (responsePipeline inp (stimPipeline inp x0)).cmplx,
         title_str := ti, H_str := hs }, true) := by
  simp [calcResponse, h, hdeg]

/-- The combined noise/DC stage preserves the signal length. -/
theorem stimPipeline_length (inp : CalcInputs) (x0 : List ℝ) :
    (stimPipeline inp x0).length = x0.length := by
  rw [stimPipeline, dcStage_length, noiseStage_length]

/-- The stored response has the same length as the stored stimulus, in
both the real and the imaginary component. -/
theorem responsePipeline_length (inp : CalcInputs) (x : List ℝ) :
    (responsePipeline inp x).y.length = x.length ∧
      (∀ l, (responsePipeline inp x).y_i = some l → l.length = x.length) := by
  have hlen : (real_if_close 1000 inp.eps (stepErrAdjust inp.stim inp.bb
      inp.aa (applyFilter inp.sos inp.antiCausal inp.bb inp.aa
        (x.map fun r : ℝ => (r : ℂ))))).length = x.length := by
    rw [real_if_close_length, stepErrAdjust_length, applyFilter_length,
      List.length_map]
  obtain ⟨h1, h2⟩ := decompose_length (real_if_close 1000 inp.eps
    (stepErrAdjust inp.stim inp.bb inp.aa (applyFilter inp.sos
      inp.antiCausal inp.bb inp.aa (x.map fun r : ℝ => (r : ℂ)))))
  refine ⟨?_, fun l hl => ?_⟩
  · rw [responsePipeline, h1, hlen]
  · rw [responsePipeline] at hl
    rw [h2 l hl, hlen]

/-- The stored `cmplx` flag holds exactly when an imaginary sequence is
stored. -/
theorem decompose_cmplx_iff_isSome (y : List ℂ) :
    (decompose y).cmplx ↔ (decompose y).y_i.isSome = true := by
  by_cases h : ∃ z ∈ y, z.im ≠ 0
  · obtain ⟨-, h2⟩ := decompose_pos y h
    rw [h2, decompose_cmplx_iff]
    simp [h]
  · obtain ⟨-, h2⟩ := decompose_neg y h
    rw [h2, decompose_cmplx_iff]
    simp [h]

/-- `real_if_close` leaves a list of purely real samples unchanged. -/
theorem real_if_close_of_real (eps : ℝ) (heps : 0 < eps) (y : List ℂ)
    (him : ∀ z ∈ y, z.im = 0) : real_if_close 1000 eps y = y := by
  rw [real_if_close, if_pos]
  · conv_rhs => rw [← List.map_id y]
    apply List.map_congr_left
    intro z hz
    exact Complex.ext (by simp) (by simp [him z hz])
  · intro z hz
    rw [him z hz]
    simp
    positivity

/-- With the padded identity coefficients `b = [1, 0]`, `a = [1, 0]`, no
SOS sections and a causal filter, the response pipeline returns the
stimulus itself (cast to ℂ), except that the StepError adjustment
subtracts the unit DC gain. -/
theorem responsePipeline_identity (inp : CalcInputs) (x : List ℝ)
    (hb : inp.bb = [1, 0]) (ha : inp.aa = [1, 0]) (hsos : inp.sos = [])
    (hac : inp.antiCausal = false) (heps : 0 < inp.eps) :
    (inp.stim ≠ "StepErr" →
      (responsePipeline inp x).y = x.map fun r : ℝ => (r : ℂ))
    ∧ (inp.stim = "StepErr" →
      (responsePipeline inp x).y = x.map fun r : ℝ => ((r : ℂ) - 1)) := by
  have hAF : applyFilter inp.sos inp.antiCausal inp.bb inp.aa
      (x.map fun r : ℝ => (r : ℂ)) = x.map fun r : ℝ => (r : ℂ) := by
    rw [hb, ha, hsos, hac, applyFilter, if_neg (by simp),
      if_neg (by simp)]
    exact lfilter_identity _
  constructor
  · intro hne
    rw [responsePipeline, hAF, stepErrAdjust, if_neg hne,
      real_if_close_of_real inp.eps heps _ (by
        intro z hz
        obtain ⟨r, -, rfl⟩ := List.mem_map.mp hz
        simp),
      (decompose_neg _ (by
        rintro ⟨z, hz, hne2⟩
        obtain ⟨r, -, rfl⟩ := List.mem_map.mp hz
        exact hne2 (Complex.ofReal_im r))).1]
  · intro heq
    have hdc : ((Complex.abs (freqzAt inp.bb inp.aa 0) : ℝ) : ℂ) = 1 := by
      rw [hb, ha, freqzAt_zero]
      simp
    have hmap : (x.map fun r : ℝ => (r : ℂ)).map (fun z => z - 1) =
        x.map fun r : ℝ => ((r : ℂ) - 1) := by
      rw [List.map_map]
      rfl
    have him : ∀ z ∈ x.map fun r : ℝ => ((r : ℂ) - 1), z.im = 0 := by
      intro z hz
      obtain ⟨r, -, rfl⟩ := List.mem_map.mp hz
      simp
    rw [responsePipeline, hAF, stepErrAdjust, if_pos heq, hdc, hmap,
      real_if_close_of_real inp.eps heps _ him,
      (decompose_neg _ (by
        rintro ⟨z, hz, hne2⟩
        exact hne2 (him z hz))).1]

/-- C1: the filtering mode is selected in priority order — a non-empty SOS
list on a non-anti-causal filter selects the second-order-section cascade;
otherwise an anti-causal filter selects zero-phase forward-backward
filtering of `(b, a)`, ignoring the SOS list even when it is non-empty;
otherwise the single-pass causal direct-form filter of `(b, a)` is
applied. -/
theorem C1_filtering_mode_priority (sos : List SOSec) (antiCausal : Bool)
    (bb aa : List ℂ) (x : List ℂ) :
    (sos ≠ [] → antiCausal = false →
      applyFilter sos antiCausal bb aa x = sosfilt sos x)
    ∧ (antiCausal = true →
      applyFilter sos antiCausal bb aa x = filtfilt bb aa x)
    ∧ (sos = [] → antiCausal = false →
      applyFilter sos antiCausal bb aa x = lfilter bb aa x) := by
  refine ⟨fun hs ha => ?_, fun ha => ?_, fun hs ha => ?_⟩
  · rw [applyFilter, if_pos ⟨List.length_pos.mpr hs, ha⟩]
  · have hneg : ¬(0 < sos.length ∧ antiCausal = false) := by
      rintro ⟨-, h2⟩
      rw [ha] at h2
      cases h2
    rw [applyFilter, if_neg hneg, if_pos ha]
  · have hneg : ¬(0 < sos.length ∧ antiCausal = false) := by
      rintro ⟨h1, -⟩
      rw [hs] at h1
      simp at h1
    rw [applyFilter, if_neg hneg, if_neg (by rw [ha]; simp)]

/-- Witness for C1 at a concrete input: with a non-empty SOS list but an
anti-causal filter, the zero-phase path is chosen. -/
theorem C1_witness :
    applyFilter [⟨1, 0, 0, 1, 0, 0⟩] true [1, 0] [1, 0] [1] =
      filtfilt [1, 0] [1, 0] [1] :=
  (C1_filtering_mode_priority [⟨1, 0, 0, 1, 0, 0⟩] true [1, 0] [1, 0] [1]).2.1
    rfl

/-- C4: a requested point count of 0 resolves to 100 for an IIR filter and
to `min(len(b), 100)` for an FIR filter (37 coefficients resolve to 37,
150 to 100); a non-zero request is used directly; the total simulated
length always adds `N_start` to the resolved count. -/
theorem C4_point_count_resolution (inp : CalcInputs) :
    (inp.N_user = 0 → inp.ft = "IIR" →
      calc_n_points inp.ft inp.bb.length inp.N_user = 100)
    ∧ (inp.N_user = 0 → inp.ft ≠ "IIR" →
      calc_n_points inp.ft inp.bb.length inp.N_user = min inp.bb.length 100)
    ∧ (inp.N_user ≠ 0 →
      calc_n_points inp.ft inp.bb.length inp.N_user = inp.N_user)
    ∧ calc_n_points "FIR" 37 0 = 37
    ∧ calc_n_points "FIR" 150 0 = 100
    ∧ nTotal inp = calc_n_points inp.ft inp.bb.length inp.N_user +
        inp.N_start := by
  refine ⟨fun h0 hft => ?_, fun h0 hft => ?_, fun h0 => ?_,
    by decide, by decide, ?_⟩
  · rw [calc_n_points, if_pos h0, if_pos hft]
  · rw [calc_n_points, if_pos h0, if_neg hft]
  · rw [calc_n_points, if_neg h0]
  · by_cases h : inp.N_user = 0
    · rw [nTotal, if_pos h]
    · rw [nTotal, if_neg h, calc_n_points, if_neg h]

/-- Witness for C4 at a concrete input: the baseline input requests 2
points, which are used directly. -/
theorem C4_witness :
    calc_n_points inpBase.ft inpBase.bb.length inpBase.N_user =
      inpBase.N_user :=
  (C4_point_count_resolution inpBase).2.2.1 (by simp [inpBase])

/-- C7: for the StepError stimulus the magnitude of the DC gain computed
from `(b, a)` — `|sum(b)/sum(a)|`, the value of `freqz` at frequency 0 —
is subtracted from every sample of the response; for every other stimulus
kind this post-processing step leaves the response unchanged. -/
theorem C7_step_error_adjustment (stim : String) (bb aa : List ℂ)
    (y : List ℂ) :
    (stim = "StepErr" →
      stepErrAdjust stim bb aa y =
        y.map fun z => z - ((Complex.abs (bb.sum / aa.sum) : ℝ) : ℂ))
    ∧ (stim ≠ "StepErr" → stepErrAdjust stim bb aa y = y) := by
  constructor
  · intro h
    rw [stepErrAdjust, if_pos h, freqzAt_zero]
  · intro h
    rw [stepErrAdjust, if_neg h]

/-- Witness for C7 at a concrete input: a pulse response is left unchanged
by the settling-error post-processing. -/
theorem C7_witness :
    stepErrAdjust "Pulse" [1] [1] [(1 : ℂ)] = [(1 : ℂ)] :=
  (C7_step_error_adjustment "Pulse" [1] [1] [(1 : ℂ)]).2 (by decide)

/-- C9: additive noise (Gaussian draws scaled by the noise level, or
uniform draws shifted to `[-0.5, 0.5)` and scaled) is added only at
indices `n ≥ N_start`; every sample in the startup region `[0, N_start)`
is unchanged by the noise stage, and a noise kind other than Gaussian or
uniform changes no sample at all. -/
theorem C9_noise_scope (noise : String) (noi : ℝ) (g u : ℕ → ℝ)
    (N_start : ℕ) (x : List ℝ) :
    (∀ i, i < N_start →
      (noiseStage noise noi g u N_start x).getD i 0 = x.getD i 0)
    ∧ (noise ≠ "gauss" → noise ≠ "uniform" →
        noiseStage noise noi g u N_start x = x)
    ∧ (noise = "gauss" → ∀ i, N_start ≤ i → i < x.length →
        (noiseStage noise noi g u N_start x).getD i 0 =
          x.getD i 0 + noi * g (i - N_start))
    ∧ (noise = "uniform" → ∀ i, N_start ≤ i → i < x.length →
        (noiseStage noise noi g u N_start x).getD i 0 =
          x.getD i 0 + noi * (u (i - N_start) - 0.5)) := by
  refine ⟨?_, ?_, ?_, ?_⟩
  · intro i hi
    unfold noiseStage
    split_ifs
    · exact noiseKeep_getD x _ N_start i hi (by simp)
    · exact noiseKeep_getD x _ N_start i hi (by simp)
    · rfl
  · intro h1 h2
    unfold noiseStage
    rw [if_neg h1, if_neg h2]
  · intro h i hge hlt
    unfold noiseStage
    rw [if_pos h]
    exact noiseAdd_getD x g (fun xi wv => xi + noi * wv) N_start i hge hlt
  · intro h i hge hlt
    unfold noiseStage
    rw [if_neg (by rw [h]; decide), if_pos h]
    exact noiseAdd_getD x u (fun xi wv => xi + noi * (wv - 0.5)) N_start i
      hge hlt

/-- Witness for C9 at a concrete input: with the noise kind `"none"` the
stage returns the stimulus unchanged. -/
theorem C9_witness :
    noiseStage "none" 1 (fun _ => 0) (fun _ => 0) 1 [1, 2] = [1, 2] :=
  (C9_noise_scope "none" 1 (fun _ => 0) (fun _ => 0) 1 [1, 2]).2.1
    (by decide) (by decide)

/-- C3: a simulation call fails — producing no result and leaving the
previously stored response untouched — exactly when the stimulus kind is
not one of the seven recognized kinds or the coefficient sets satisfy
`min(len(a), len(b)) < 2`; an unrecognized kind in particular does not
silently overwrite the stored stimulus or response with zeros. -/
theorem C3_failure_conditions (prev : CalcState) (inp : CalcInputs) :
    ((calcResponse prev inp).2 = false ↔
      (inp.stim ∉ ["Pulse", "Step", "StepErr", "Cos", "Sine", "Rect", "Saw"]
        ∨ min inp.aa.length inp.bb.length < 2))
    ∧ (inp.stim ∉ ["Pulse", "Step", "StepErr", "Cos", "Sine", "Rect", "Saw"] →
        (calcResponse prev inp).1.x = prev.x ∧
          (calcResponse prev inp).1.y = prev.y) := by
  rcases hstim : stimGen inp.stim (nTotal inp) (timeAxis inp) inp.A1 inp.A2
      inp.f1 inp.f2 inp.phi1 inp.phi2 with _ | ⟨x0, ti, hs⟩
  · have hmem := (stimGen_eq_none_iff inp.stim (nTotal inp) (timeAxis inp)
      inp.A1 inp.A2 inp.f1 inp.f2 inp.phi1 inp.phi2).mp hstim
    rw [calcResponse_eval_none prev inp hstim]
    exact ⟨by simp [hmem], fun _ => ⟨rfl, rfl⟩⟩
  · have hmem : inp.stim ∈
        ["Pulse", "Step", "StepErr", "Cos", "Sine", "Rect", "Saw"] := by
      by_contra hm
      rw [(stimGen_eq_none_iff inp.stim (nTotal inp) (timeAxis inp) inp.A1
        inp.A2 inp.f1 inp.f2 inp.phi1 inp.phi2).mpr hm] at hstim
      cases hstim
    by_cases hdeg : min inp.aa.length inp.bb.length < 2
    · rw [calcResponse_eval_degen prev inp x0 ti hs hstim hdeg]
      exact ⟨by simp [hdeg], fun hc => absurd hmem hc⟩
    · rw [calcResponse_eval_ok prev inp x0 ti hs hstim hdeg]
      exact ⟨by simp [hmem, hdeg], fun hc => absurd hmem hc⟩

/-- Witness for C3 at a concrete input: an unknown stimulus kind leaves the
stored stimulus and response unchanged. -/
theorem C3_witness :
    (calcResponse st0 inpUnknownStim).1.x = st0.x ∧
      (calcResponse st0 inpUnknownStim).1.y = st0.y :=
  (C3_failure_conditions st0 inpUnknownStim).2 (by decide)

/-- C10: on a degenerate filter (`min(len(a), len(b)) < 2`) with a
recognized stimulus, the call fails only after the freshly generated
stimulus — noise and DC stages included — has been stored, overwriting the
previous `x`, while the previously stored response fields survive: the
error outcome is not atomic with respect to the widget state. -/
theorem C10_degenerate_overwrites_x (prev : CalcState) (inp : CalcInputs)
    (x0 : List ℝ) (ti hs : String)
    (h : stimGen inp.stim (nTotal inp) (timeAxis inp) inp.A1 inp.A2 inp.f1
      inp.f2 inp.phi1 inp.phi2 = some (x0, ti, hs))
    (hdeg : min inp.aa.length inp.bb.length < 2) :
    (calcResponse prev inp).2 = false
    ∧ (calcResponse prev inp).1.x =
        dcStage inp.dcEnabled inp.DC
          (noiseStage inp.noise inp.noi inp.g inp.u inp.N_start x0)
    ∧ (calcResponse prev inp).1.y = prev.y
    ∧ (calcResponse prev inp).1.y_i = prev.y_i
    ∧ ((calcResponse prev inp).1.cmplx ↔ prev.cmplx) := by
  rw [calcResponse_eval_degen prev inp x0 ti hs h hdeg]
  exact ⟨rfl, rfl, rfl, rfl, Iff.rfl⟩

/-- Witness for C10 at a concrete input: a degenerate filter with a step
stimulus overwrites the stored stimulus and reports failure. -/
theorem C10_witness :
    (calcResponse st0 inpDegenStep).2 = false
    ∧ (calcResponse st0 inpDegenStep).1.x =
        dcStage inpDegenStep.dcEnabled inpDegenStep.DC
          (noiseStage inpDegenStep.noise inpDegenStep.noi inpDegenStep.g
            inpDegenStep.u inpDegenStep.N_start
            (List.replicate (nTotal inpDegenStep) inpDegenStep.A1))
    ∧ (calcResponse st0 inpDegenStep).1.y = st0.y
    ∧ (calcResponse st0 inpDegenStep).1.y_i = st0.y_i
    ∧ ((calcResponse st0 inpDegenStep).1.cmplx ↔ st0.cmplx) :=
  C10_degenerate_overwrites_x st0 inpDegenStep
    (List.replicate (nTotal inpDegenStep) inpDegenStep.A1) "Step Response"
    "$h_\x7b\\epsilon\x7d[n]$" rfl (by decide)

/-- C8: every successful simulation stores a time axis, a stimulus and a
response of the same length `N = resolvedPoints + N_start`; an imaginary
sequence is stored iff the complex flag holds, and then it has length `N`
as well. -/
theorem C8_result_lengths (prev : CalcState) (inp : CalcInputs)
    (hok : (calcResponse prev inp).2 = true) :
    (calcResponse prev inp).1.N = nTotal inp
    ∧ nTotal inp =
        calc_n_points inp.ft inp.bb.length inp.N_user + inp.N_start
    ∧ (calcResponse prev inp).1.t.length = nTotal inp
    ∧ (calcResponse prev inp).1.x.length = nTotal inp
    ∧ (calcResponse prev inp).1.y.length = nTotal inp
    ∧ ((calcResponse prev inp).1.cmplx ↔
        (calcResponse prev inp).1.y_i.isSome = true)
    ∧ (∀ l, (calcResponse prev inp).1.y_i = some l →
        l.length = nTotal inp) := by
  have hres : nTotal inp =
      calc_n_points inp.ft inp.bb.length inp.N_user + inp.N_start := by
    by_cases h : inp.N_user = 0
    · rw [nTotal, if_pos h]
    · rw [nTotal, if_neg h, calc_n_points, if_neg h]
  rcases hstim : stimGen inp.stim (nTotal inp) (timeAxis inp) inp.A1 inp.A2
      inp.f1 inp.f2 inp.phi1 inp.phi2 with _ | ⟨x0, ti, hs⟩
  · rw [calcResponse_eval_none prev inp hstim] at hok
    cases hok
  · by_cases hdeg : min inp.aa.length inp.bb.length < 2
    · rw [calcResponse_eval_degen prev inp x0 ti hs hstim hdeg] at hok
      cases hok
    · have hx0 : x0.length = nTotal inp :=
        stimGen_length inp.stim (nTotal inp) (timeAxis inp) inp.A1 inp.A2
          inp.f1 inp.f2 inp.phi1 inp.phi2 x0 ti hs hstim (timeAxis_length inp)
      have hxp : (stimPipeline inp x0).length = nTotal inp := by
        rw [stimPipeline_length, hx0]
      obtain ⟨hy, hyi⟩ := responsePipeline_length inp (stimPipeline inp x0)
      rw [calcResponse_eval_ok prev inp x0 ti hs hstim hdeg]
      refine ⟨rfl, hres, timeAxis_length inp, hxp, ?_, ?_, ?_⟩
      · rw [hy, hxp]
      · exact decompose_cmplx_iff_isSome _
      · intro l hl
        rw [hyi l hl, hxp]

/-- Witness for C8 at a concrete input: the baseline pulse simulation
succeeds and satisfies all the length invariants. -/
theorem C8_witness :
    (calcResponse st0 inpBase).1.N = nTotal inpBase
    ∧ nTotal inpBase = calc_n_points inpBase.ft inpBase.bb.length
        inpBase.N_user + inpBase.N_start
    ∧ (calcResponse st0 inpBase).1.t.length = nTotal inpBase
    ∧ (calcResponse st0 inpBase).1.x.length = nTotal inpBase
    ∧ (calcResponse st0 inpBase).1.y.length = nTotal inpBase
    ∧ ((calcResponse st0 inpBase).1.cmplx ↔
        (calcResponse st0 inpBase).1.y_i.isSome = true)
    ∧ (∀ l, (calcResponse st0 inpBase).1.y_i = some l →
        l.length = nTotal inpBase) :=
  C8_result_lengths st0 inpBase (by
    rw [calcResponse_eval_ok st0 inpBase
      ((List.replicate (nTotal inpBase) (0 : ℝ)).set 0 inpBase.A1)
      "Impulse Response" "$h[n]$" rfl (by decide)])

/-- C5: if every raw sample's imaginary component is below 1000 machine
epsilons, the cleanup renders the response real — the complex flag is
false and no imaginary sequence is stored; otherwise the complex flag
holds iff some sample still has a non-zero imaginary part after cleanup,
and in that case the stored response is the elementwise real part and the
stored imaginary sequence the elementwise imaginary part. -/
theorem C5_complex_cleanup (eps : ℝ) (y : List ℂ) :
    ((∀ z ∈ y, |z.im| < 1000 * eps) →
      ¬(decompose (real_if_close 1000 eps y)).cmplx ∧
        (decompose (real_if_close 1000 eps y)).y_i = none)
    ∧ (¬(∀ z ∈ y, |z.im| < 1000 * eps) →
      ((decompose (real_if_close 1000 eps y)).cmplx ↔
        ∃ z ∈ real_if_close 1000 eps y, z.im ≠ 0)
      ∧ ((decompose (real_if_close 1000 eps y)).cmplx →
        (decompose (real_if_close 1000 eps y)).y =
          (real_if_close 1000 eps y).map (fun z => (z.re : ℂ)) ∧
        (decompose (real_if_close 1000 eps y)).y_i =
          some ((real_if_close 1000 eps y).map Complex.im))) := by
  constructor
  · intro h
    have hc : real_if_close 1000 eps y = y.map fun z => (z.re : ℂ) := by
      rw [real_if_close, if_pos h]
    have hnone : ¬ ∃ z ∈ real_if_close 1000 eps y, z.im ≠ 0 := by
      rw [hc]
      rintro ⟨z, hz, hne⟩
      obtain ⟨w, -, rfl⟩ := List.mem_map.mp hz
      exact hne (Complex.ofReal_im _)
    exact ⟨fun hcm => hnone ((decompose_cmplx_iff _).mp hcm),
      (decompose_neg _ hnone).2⟩
  · intro _
    exact ⟨decompose_cmplx_iff _,
      fun hcm => decompose_pos _ ((decompose_cmplx_iff _).mp hcm)⟩

/-- Witness for C5 at a concrete input: a purely real singleton is cleaned
to a real result with no stored imaginary sequence. -/
theorem C5_witness :
    ¬(decompose (real_if_close 1000 1 [(2 : ℂ)])).cmplx ∧
      (decompose (real_if_close 1000 1 [(2 : ℂ)])).y_i = none :=
  (C5_complex_cleanup 1 [(2 : ℂ)]).1 (by
    intro z hz
    rw [List.mem_singleton] at hz
    subst hz
    norm_num)

/-- C6 (code bug): line 279 tests the bound method object
`self.ui.ledDC.isVisible` instead of calling it, so the truthiness check
always succeeds and the DC offset is added even when the DC entry widget
is not visible: with `dcEnabled = false`, a DC offset of 1 and a zero
one-point step stimulus, the stored stimulus is `[1]` where the spec
demands the unchanged `[0]`. -/
theorem C6_dc_added_though_disabled :
    inpDCBug.dcEnabled = false
    ∧ (calcResponse st0 inpDCBug).1.x = [1]
    ∧ (1 : ℝ) ≠ 0 := by
  refine ⟨rfl, ?_, by norm_num⟩
  rw [calcResponse_eval_ok st0 inpDCBug
    (List.replicate (nTotal inpDCBug) inpDCBug.A1) "Step Response"
    "$h_\x7b\\epsilon\x7d[n]$" rfl (by decide)]
  show stimPipeline inpDCBug (List.replicate (nTotal inpDCBug) inpDCBug.A1)
      = [1]
  have h1 : List.replicate (nTotal inpDCBug) inpDCBug.A1 = [(0 : ℝ)] := rfl
  have h2 : noiseStage inpDCBug.noise inpDCBug.noi inpDCBug.g inpDCBug.u
      inpDCBug.N_start [(0 : ℝ)] = [(0 : ℝ)] := by
    rw [noiseStage, if_neg (by decide), if_neg (by decide)]
  rw [stimPipeline, h1, h2, dcStage]
  norm_num [inpDCBug, inpBase]

/-- C2 (counterexample): with the identity filter written as `b = [1]`,
`a = [1]` the call is rejected as degenerate — it reports failure and the
stored response keeps its previous value instead of becoming a copy of the
stimulus. -/
theorem C2_counterexample :
    (calcResponse st0 inpIdentityShort).2 = false
    ∧ (calcResponse st0 inpIdentityShort).1.y = st0.y := by
  rw [calcResponse_eval_degen st0 inpIdentityShort
    ((List.replicate (nTotal inpIdentityShort) (0 : ℝ)).set 0
      inpIdentityShort.A1) "Impulse Response" "$h[n]$" rfl (by decide)]
  exact ⟨rfl, rfl⟩

/-- C2 (amended): the identity filter written with usable coefficients
`b = [1, 0]`, `a = [1, 0]` on the causal path completes, and the stored
response equals the stored stimulus exactly for every recognized stimulus
kind except StepError; for StepError the unit DC gain 1 is subtracted from
every sample. -/
theorem C2_identity_filter (prev : CalcState) (inp : CalcInputs)
    (x0 : List ℝ) (ti hs : String)
    (hb : inp.bb = [1, 0]) (ha : inp.aa = [1, 0]) (hsos : inp.sos = [])
    (hac : inp.antiCausal = false) (heps : 0 < inp.eps)
    (h : stimGen inp.stim (nTotal inp) (timeAxis inp) inp.A1 inp.A2 inp.f1
      inp.f2 inp.phi1 inp.phi2 = some (x0, ti, hs)) :
    (calcResponse prev inp).2 = true
    ∧ (inp.stim ≠ "StepErr" →
        (calcResponse prev inp).1.y =
          (calcResponse prev inp).1.x.map fun r : ℝ => (r : ℂ))
    ∧ (inp.stim = "StepErr" →
        (calcResponse prev inp).1.y =
          (calcResponse prev inp).1.x.map fun r : ℝ => ((r : ℂ) - 1)) := by
  have hdeg : ¬ min inp.aa.length inp.bb.length < 2 := by
    rw [hb, ha]
    decide
  rw [calcResponse_eval_ok prev inp x0 ti hs h hdeg]
  obtain ⟨h1, h2⟩ := responsePipeline_identity inp (stimPipeline inp x0)
    hb ha hsos hac heps
  exact ⟨rfl, fun hne => h1 hne, fun heq => h2 heq⟩

/-- Witness for C2 (amended) at a concrete input: the baseline pulse
stimulus through the padded identity filter is returned unchanged. -/
theorem C2_witness :
    (calcResponse st0 inpBase).2 = true
    ∧ (inpBase.stim ≠ "StepErr" →
        (calcResponse st0 inpBase).1.y =
          (calcResponse st0 inpBase).1.x.map fun r : ℝ => (r : ℂ))
    ∧ (inpBase.stim = "StepErr" →
        (calcResponse st0 inpBase).1.y =
          (calcResponse st0 inpBase).1.x.map fun r : ℝ => ((r : ℂ) - 1)) :=
  C2_identity_filter st0 inpBase
    ((List.replicate (nTotal inpBase) (0 : ℝ)).set 0 inpBase.A1)
    "Impulse Response" "$h[n]$" rfl rfl rfl rfl (by norm_num [inpBase]) rfl
